import Mathlib

/-!
Verification of the image transform core of the Photo-resizer repository.

The repository contains two near-identical Flask entrypoints, `app.py` and
`api/index.py`; the algorithmic core of both is the function
`resize_and_compress_image(image, target_width, target_height, max_size_kb,
initial_quality)`.  We shallowly embed that core here.

External collaborators (the PIL library's resize with the LANCZOS filter, the
generic `convert('RGB')` conversion, and the JPEG encoder invoked by
`Image.save(..., format='JPEG', quality=q, optimize=True)`) are modelled as
abstract function parameters: the embedded core is parametric in `resizeFn`,
`convertRGB` and `enc`, exactly as the spec treats them as collaborators.
The one piece of PIL behaviour the code relies on structurally - pasting an
RGBA image onto a fresh white background through its own alpha channel - is
modelled concretely, following PIL's `Paste.c` blend arithmetic
(the `MULDIV255` macro, exact round-to-nearest division by 255).

Python `float` sizes (`bytes / 1024`, the `maxSize` form field) are modelled
as `ℚ`; every value the program manipulates (byte counts divided by the power
of two 1024, and the decimal thresholds 10240, 10240.01) is exactly
representable in binary64 within the relevant ranges, so the `ℚ` comparisons
agree with the Python `float` comparisons.  Python's `round(x, 2)` performs
round-half-to-even; it is modelled exactly as such on `ℚ`.
-/

/-- PIL color modes relevant to this application: `RGBA` (truecolor with
alpha), `P` (indexed palette), `RGB` (truecolor), `L` (grayscale), `CMYK`
(any other non-RGB mode reaching the `elif` branch). -/
inductive Mode
  | RGBA
  | P
  | RGB
  | L
  | CMYK
deriving DecidableEq

/-- One pixel, channels as 8-bit values `0..255`. For modes without an alpha
channel the `a` field is the implicit full opacity `255`. -/
structure Pixel where
  r : Nat
  g : Nat
  b : Nat
  a : Nat
deriving DecidableEq

/-- An in-memory decoded raster: a color mode and a row-major pixel grid. -/
structure Image where
  mode : Mode
  pixels : List (List Pixel)
deriving DecidableEq

/-- PIL's `MULDIV255(a, b)` macro from `Paste.c`: exact round-to-nearest of
`a * b / 255`, computed as `(t := a*b + 128; ((t >> 8) + t) >> 8)`. -/
def muldiv255 (a b : Nat) : Nat :=
  (((a * b + 128) / 256) + (a * b + 128)) / 256

/-- PIL's per-channel `BLEND(mask, in1, in2)` used by `paste` with an 8-bit
mask: `MULDIV255(in1, 255 - mask) + MULDIV255(in2, mask)` where `in1` is the
background channel and `in2` the pasted image's channel. -/
def blendChannel (bg c alpha : Nat) : Nat :=
  muldiv255 bg (255 - alpha) + muldiv255 c alpha

/-- The opaque white pixel `(255, 255, 255)`. -/
def whitePixel : Pixel := ⟨255, 255, 255, 255⟩

/-- Blend one pasted pixel over a background pixel, using the pasted pixel's
own alpha channel as the mask (the `mask=resized_image.split()[3]` call). -/
def blendPix (bg p : Pixel) : Pixel :=
  ⟨blendChannel bg.r p.r p.a, blendChannel bg.g p.g p.a,
   blendChannel bg.b p.b p.a, 255⟩

/-- `Image.new('RGB', resized_image.size, (255, 255, 255))`: a fresh opaque
white RGB image with the same dimensions as `im`. -/
def whiteImage (im : Image) : Image :=
  ⟨Mode.RGB, im.pixels.map (fun row => row.map (fun _ => whitePixel))⟩

/-- `background.paste(im, mask=alpha)`: blend `im` over `bg` pixelwise using
`im`'s alpha channel as the mask; the result keeps `bg`'s mode. -/
def pasteImages (bg im : Image) : Image :=
  ⟨bg.mode, List.zipWith (fun r1 r2 => List.zipWith blendPix r1 r2)
      bg.pixels im.pixels⟩

/-- Pixel lookup, `none` when out of the grid. -/
def getPixel (im : Image) (x y : Nat) : Option Pixel :=
  (im.pixels.get? y).bind (fun row => row.get? x)

/-- Python's `round` to an integer: round half to even. -/
def roundHalfEven (x : ℚ) : ℤ :=
  if x - ⌊x⌋ < 1 / 2 then ⌊x⌋
  else if 1 / 2 < x - ⌊x⌋ then ⌊x⌋ + 1
  else if ⌊x⌋ % 2 = 0 then ⌊x⌋ else ⌊x⌋ + 1

/-- Python's `round(x, 2)`. -/
def round2 (x : ℚ) : ℚ := (roundHalfEven (100 * x) : ℚ) / 100

/-- `output_buffer.tell() / 1024`: size of an encoded buffer in kilobytes. -/
def sizeKb (buf : List Nat) : ℚ := (buf.length : ℚ) / 1024

namespace App

/-- STEP 2 of `resize_and_compress_image` in `app.py` (lines 115-125): color
mode normalization.  `convertRGB` is PIL's generic `convert('RGB')`,
abstract here.  Transcribed branch for branch:
`if mode in ('RGBA','P'):` create a white background, then paste through the
alpha channel if `RGBA`, else `convert('RGB')`; `elif mode != 'RGB':`
`convert('RGB')`; else unchanged. -/
def normalizeMode (convertRGB : Image → Image) (im : Image) : Image :=
  if im.mode = Mode.RGBA ∨ im.mode = Mode.P then
    if im.mode = Mode.RGBA then
      pasteImages (whiteImage im) im
    else
      convertRGB im
  else if im.mode ≠ Mode.RGB then
    convertRGB im
  else
    im

/-- STEP 4 of `resize_and_compress_image` in `app.py` (lines 148-157): the
quality backoff loop.  `enc q` is the JPEG encoding of the (fixed, already
normalized) image at quality `q`; state is the current quality, the current
output buffer and `current_size_kb`.
`while current_size_kb > max_size_kb and current_quality > 5:`
`current_quality -= 5`, re-encode, remeasure. -/
def qualityLoop (enc : Nat → List Nat) (max_size_kb : ℚ) (q : Nat)
    (buf : List Nat) (sz : ℚ) : List Nat × Nat × ℚ :=
  if h : max_size_kb < sz ∧ 5 < q then
    qualityLoop enc max_size_kb (q - 5) (enc (q - 5)) (sizeKb (enc (q - 5)))
  else
    (buf, q, sz)
termination_by q
decreasing_by omega

/-- `resize_and_compress_image` from `app.py` (lines 79-166), parametric in
the three PIL collaborators.  Returns
`(output_buffer.getvalue(), current_quality, round(current_size_kb, 2))`. -/
def resize_and_compress_image (resizeFn : Image → Nat → Nat → Image)
    (convertRGB : Image → Image) (enc : Image → Nat → List Nat)
    (image : Image) (target_width target_height : Nat)
    (max_size_kb : ℚ) (initial_quality : Nat) : List Nat × Nat × ℚ :=
  let resized_image := resizeFn image target_width target_height
  let normalized := normalizeMode convertRGB resized_image
  let output_buffer := enc normalized initial_quality
  let current_size_kb := sizeKb output_buffer
  let r := qualityLoop (enc normalized) max_size_kb initial_quality
      output_buffer current_size_kb
  (r.1, r.2.1, round2 r.2.2)

end App

namespace Api

/-- Color mode normalization from `api/index.py` (lines 50-58); the code is
a verbatim copy of the `app.py` version. -/
def normalizeMode (convertRGB : Image → Image) (im : Image) : Image :=
  if im.mode = Mode.RGBA ∨ im.mode = Mode.P then
    if im.mode = Mode.RGBA then
      pasteImages (whiteImage im) im
    else
      convertRGB im
  else if im.mode ≠ Mode.RGB then
    convertRGB im
  else
    im

/-- The quality backoff loop from `api/index.py` (lines 67-71), a verbatim
copy of the `app.py` loop. -/
def qualityLoop (enc : Nat → List Nat) (max_size_kb : ℚ) (q : Nat)
    (buf : List Nat) (sz : ℚ) : List Nat × Nat × ℚ :=
  if h : max_size_kb < sz ∧ 5 < q then
    qualityLoop enc max_size_kb (q - 5) (enc (q - 5)) (sizeKb (enc (q - 5)))
  else
    (buf, q, sz)
termination_by q
decreasing_by omega

/-- `resize_and_compress_image` from `api/index.py` (lines 42-74). -/
def resize_and_compress_image (resizeFn : Image → Nat → Nat → Image)
    (convertRGB : Image → Image) (enc : Image → Nat → List Nat)
    (image : Image) (target_width target_height : Nat)
    (max_size_kb : ℚ) (initial_quality : Nat) : List Nat × Nat × ℚ :=
  let resized_image := resizeFn image target_width target_height
  let normalized := normalizeMode convertRGB resized_image
  let output_buffer := enc normalized initial_quality
  let current_size_kb := sizeKb output_buffer
  let r := qualityLoop (enc normalized) max_size_kb initial_quality
      output_buffer current_size_kb
  (r.1, r.2.1, round2 r.2.2)

end Api

namespace App

/-- Encode-counting mirror of `App.qualityLoop`: identical control flow, plus
a counter `n` incremented at each `resized_image.save` performed inside the
loop body.  Used to state the iteration-count claims; it projects onto
`App.qualityLoop` (see `qualityLoopN_proj`). -/
def qualityLoopN (enc : Nat → List Nat) (max_size_kb : ℚ) (q : Nat)
    (buf : List Nat) (sz : ℚ) (n : Nat) : (List Nat × Nat × ℚ) × Nat :=
  if h : max_size_kb < sz ∧ 5 < q then
    qualityLoopN enc max_size_kb (q - 5) (enc (q - 5)) (sizeKb (enc (q - 5)))
      (n + 1)
  else
    ((buf, q, sz), n)
termination_by q
decreasing_by omega

/-- Encode-counting mirror of `App.resize_and_compress_image`: the same
pipeline, also returning the total number of `save` (encode) calls performed,
starting from `1` for the initial STEP 3 encode. -/
def resize_and_compress_imageN (resizeFn : Image → Nat → Nat → Image)
    (convertRGB : Image → Image) (enc : Image → Nat → List Nat)
    (image : Image) (target_width target_height : Nat)
    (max_size_kb : ℚ) (initial_quality : Nat) :
    (List Nat × Nat × ℚ) × Nat :=
  let resized_image := resizeFn image target_width target_height
  let normalized := normalizeMode convertRGB resized_image
  let output_buffer := enc normalized initial_quality
  let current_size_kb := sizeKb output_buffer
  let r := qualityLoopN (enc normalized) max_size_kb initial_quality
      output_buffer current_size_kb 1
  ((r.1.1, r.1.2.1, round2 r.1.2.2), r.2)

end App

/-!
Heap-explicit version of the `app.py` core, for the frame / no-mutation
claim.  PIL `Image` objects are heap objects; a `Store` is the heap (a list
of live images), and each PIL call is transcribed by its actual effect on
the heap: `image.resize` and `convert` allocate and return NEW images,
`Image.new` allocates, `background.paste` MUTATES the background object in
place, `save` only reads.  The caller's image lives at index `i`.
-/

/-- The heap of live PIL image objects. -/
abbrev Store := List Image

/-- Default image used for out-of-range heap reads (never hit in practice). -/
def dfltImage : Image := ⟨Mode.RGB, []⟩

namespace App

/-- Heap-explicit transcription of `resize_and_compress_image` from
`app.py`: the caller's image is the heap object at index `i`; every PIL
operation is given its real allocation/mutation behaviour.  Returns the
final heap together with the function's return value. -/
def resize_and_compress_image_store (resizeFn : Image → Nat → Nat → Image)
    (convertRGB : Image → Image) (enc : Image → Nat → List Nat)
    (s : Store) (i : Nat) (target_width target_height : Nat)
    (max_size_kb : ℚ) (initial_quality : Nat) :
    Store × (List Nat × Nat × ℚ) :=
  -- STEP 1: `resized_image = image.resize(...)` allocates a new image.
  let image := List.getD s i dfltImage
  let resized_image := resizeFn image target_width target_height
  let s1 : Store := s ++ [resized_image]
  -- STEP 2: mode normalization, with its allocations and the one mutation.
  let p :=
    if resized_image.mode = Mode.RGBA ∨ resized_image.mode = Mode.P then
      -- `background = Image.new('RGB', size, (255,255,255))` allocates.
      let background := whiteImage resized_image
      let s2 : Store := s1 ++ [background]
      if resized_image.mode = Mode.RGBA then
        -- `background.paste(resized_image, mask=...)` mutates `background`
        -- in place; `resized_image = background` rebinds the name.
        let bgIdx := s1.length
        let s3 : Store := List.set s2 bgIdx (pasteImages background resized_image)
        (s3, pasteImages background resized_image)
      else
        -- `resized_image = resized_image.convert('RGB')` allocates.
        (s2 ++ [convertRGB resized_image], convertRGB resized_image)
    else if resized_image.mode ≠ Mode.RGB then
      (s1 ++ [convertRGB resized_image], convertRGB resized_image)
    else
      (s1, resized_image)
  -- STEPS 3-5: encodes only read the normalized image.
  let normalized := p.2
  let output_buffer := enc normalized initial_quality
  let current_size_kb := sizeKb output_buffer
  let r := qualityLoop (enc normalized) max_size_kb initial_quality
      output_buffer current_size_kb
  (p.1, (r.1, r.2.1, round2 r.2.2))

/-- Parameter range validation of the `/upload` handler in `app.py`
(lines 253-281), transcribed check for check in source order.  Returns the
error message of the first failing check, `none` when all pass.  `width`,
`height` and `quality` are Python `int`s (`ℤ`), `max_size_kb` a Python
`float` (`ℚ`). -/
def validateParams (width height : Int) (max_size_kb : ℚ)
    (quality : Int) : Option String :=
  if width ≤ 0 ∨ height ≤ 0 then
    some "Width and height must be positive numbers."
  else if 5000 < width ∨ 5000 < height then
    some "Width and height cannot exceed 5000 pixels."
  else if max_size_kb ≤ 0 then
    some "Maximum file size must be a positive number."
  else if 10240 < max_size_kb then
    some "Maximum file size cannot exceed 10240 KB (10 MB)."
  else if quality < 1 ∨ 100 < quality then
    some "Quality must be between 1 and 100."
  else
    none

/-- The parameter-validation-then-transform fragment of `upload_and_process`
in `app.py`: `core` stands for the call to `resize_and_compress_image` with
whatever image was uploaded; a failing check returns HTTP 400 with its
message before `core` is ever invoked, otherwise the parameters are passed
through to `core` unchanged. -/
def upload_and_process {R : Type} (core : Int → Int → ℚ → Int → R)
    (width height : Int) (max_size_kb : ℚ) (quality : Int) :
    Except (Nat × String) R :=
  match validateParams width height max_size_kb quality with
  | some e => Except.error (400, e)
  | none => Except.ok (core width height max_size_kb quality)

end App

/-!
Theorems.  First the shared loop lemmas, then one theorem per claim.
-/

namespace App

/-- Master characterization of the backoff loop when entered, as in the
program, with `buf = enc q` and `sz = sizeKb (enc q)`: there is an iteration
count `k` such that every earlier state satisfied the `while` guard, the
final state refutes it, and the loop returns the encode at quality
`q - 5 * k`. -/
theorem qualityLoop_master (enc : Nat → List Nat) (maxKb : ℚ) (q : Nat) :
    ∃ k : Nat,
      (∀ j, j < k → maxKb < sizeKb (enc (q - 5 * j)) ∧ 5 < q - 5 * j) ∧
      ¬(maxKb < sizeKb (enc (q - 5 * k)) ∧ 5 < q - 5 * k) ∧
      qualityLoop enc maxKb q (enc q) (sizeKb (enc q)) =
        (enc (q - 5 * k), q - 5 * k, sizeKb (enc (q - 5 * k))) := by
  induction q using Nat.strong_induction_on with
  | _ q ih =>
    by_cases h : maxKb < sizeKb (enc q) ∧ 5 < q
    · obtain ⟨k, hrun, hstop, heq⟩ := ih (q - 5) (by omega)
      have e : ∀ j : Nat, q - 5 - 5 * j = q - 5 * (j + 1) := by
        intro j; omega
      refine ⟨k + 1, ?_, ?_, ?_⟩
      · intro j hj
        match j with
        | 0 => simpa using h
        | j + 1 =>
          have hh := hrun j (by omega)
          rwa [e j] at hh
      · rwa [e k] at hstop
      · rw [qualityLoop, dif_pos h, heq, e k]
    · refine ⟨0, by omega, by simpa using h, ?_⟩
      rw [qualityLoop, dif_neg h]
      simp

/-- The counting loop projects onto the plain loop: same result components,
whatever the entry state. -/
theorem qualityLoopN_proj (enc : Nat → List Nat) (maxKb : ℚ) (q : Nat) :
    ∀ buf sz n,
      (qualityLoopN enc maxKb q buf sz n).1 =
        qualityLoop enc maxKb q buf sz := by
  induction q using Nat.strong_induction_on with
  | _ q ih =>
    intro buf sz n
    by_cases h : maxKb < sz ∧ 5 < q
    · rw [qualityLoopN, dif_pos h, qualityLoop, dif_pos h]
      exact ih (q - 5) (by omega) _ _ _
    · rw [qualityLoopN, dif_neg h, qualityLoop, dif_neg h]

/-- The loop performs at most `⌈(q - 5) / 5⌉` iterations (in `ℕ`,
`(q - 5 + 4) / 5` with truncated subtraction). -/
theorem qualityLoopN_count_le (enc : Nat → List Nat) (maxKb : ℚ) (q : Nat) :
    ∀ buf sz n,
      (qualityLoopN enc maxKb q buf sz n).2 ≤ n + (q - 5 + 4) / 5 := by
  induction q using Nat.strong_induction_on with
  | _ q ih =>
    intro buf sz n
    by_cases h : maxKb < sz ∧ 5 < q
    · rw [qualityLoopN, dif_pos h]
      have hh := ih (q - 5) (by omega) (enc (q - 5)) (sizeKb (enc (q - 5)))
        (n + 1)
      refine hh.trans ?_
      omega
    · rw [qualityLoopN, dif_neg h]
      omega

/-- When the entry quality is at most 5 the loop body never runs: the
counter is untouched and the entry state is returned unchanged. -/
theorem qualityLoopN_le_five (enc : Nat → List Nat) (maxKb : ℚ) (q : Nat)
    (buf : List Nat) (sz : ℚ) (n : Nat) (hq : q ≤ 5) :
    qualityLoopN enc maxKb q buf sz n = ((buf, q, sz), n) := by
  rw [qualityLoopN, dif_neg (by omega)]

end App

/-- `MULDIV255` is round-to-nearest division by 255, to within its exact
half-unit: for 8-bit operands, `255 * muldiv255 a b` is within `128` of
`a * b`. -/
theorem muldiv255_bounds (a b : Nat) (ha : a ≤ 255) (hb : b ≤ 255) :
    a * b ≤ 255 * muldiv255 a b + 128 ∧
      255 * muldiv255 a b ≤ a * b + 128 := by
  have hm : a * b ≤ 65025 := Nat.mul_le_mul ha hb
  unfold muldiv255
  generalize a * b = m at hm ⊢
  omega

/-- `muldiv255 a 0 = 0`: a zero mask contributes nothing. -/
theorem muldiv255_zero_right (a : Nat) : muldiv255 a 0 = 0 := by
  simp [muldiv255]

/-- `muldiv255 c 255 = c` on 8-bit values: a full mask passes the channel
through. -/
theorem muldiv255_255_right (c : Nat) (hc : c ≤ 255) :
    muldiv255 c 255 = c := by
  have h := muldiv255_bounds c 255 hc (le_refl 255)
  omega

/-- Blending with mask `0` returns the background channel. -/
theorem blendChannel_alpha_zero (bg c : Nat) (hbg : bg ≤ 255) :
    blendChannel bg c 0 = bg := by
  unfold blendChannel
  rw [Nat.sub_zero, muldiv255_255_right bg hbg, muldiv255_zero_right]
  omega

/-- Blending with mask `255` returns the pasted channel. -/
theorem blendChannel_alpha_full (bg c : Nat) (hc : c ≤ 255) :
    blendChannel bg c 255 = c := by
  unfold blendChannel
  rw [Nat.sub_self, muldiv255_zero_right, muldiv255_255_right c hc]
  omega

/-- Run characterization of the full `app.py` core: the returned triple is
the encode of the normalized resized image at quality `q0 - 5 * k`, where
`k` counts the loop iterations; every earlier quality satisfied the `while`
guard and the final one refutes it. -/
theorem App.resize_and_compress_image_run (resizeFn : Image → Nat → Nat → Image)
    (convertRGB : Image → Image) (enc : Image → Nat → List Nat)
    (image : Image) (target_width target_height : Nat)
    (max_size_kb : ℚ) (q0 : Nat) :
    ∃ k : Nat,
      (∀ j, j < k →
        max_size_kb < sizeKb (enc (App.normalizeMode convertRGB
          (resizeFn image target_width target_height)) (q0 - 5 * j)) ∧
        5 < q0 - 5 * j) ∧
      ¬(max_size_kb < sizeKb (enc (App.normalizeMode convertRGB
          (resizeFn image target_width target_height)) (q0 - 5 * k)) ∧
        5 < q0 - 5 * k) ∧
      App.resize_and_compress_image resizeFn convertRGB enc image
          target_width target_height max_size_kb q0 =
        (enc (App.normalizeMode convertRGB
            (resizeFn image target_width target_height)) (q0 - 5 * k),
         q0 - 5 * k,
         round2 (sizeKb (enc (App.normalizeMode convertRGB
            (resizeFn image target_width target_height)) (q0 - 5 * k)))) := by
  obtain ⟨k, hrun, hstop, heq⟩ := App.qualityLoop_master
    (enc (App.normalizeMode convertRGB
      (resizeFn image target_width target_height))) max_size_kb q0
  refine ⟨k, hrun, hstop, ?_⟩
  simp only [App.resize_and_compress_image, heq]

/-- Pixelwise content of pasting an image onto its white background through
its own alpha mask: position by position, the result is the blend of the
source pixel over opaque white. -/
theorem pasteOnWhite_getPixel (im : Image) (x y : Nat) :
    getPixel (pasteImages (whiteImage im) im) x y =
      (getPixel im x y).map (fun p => blendPix whitePixel p) := by
  unfold getPixel pasteImages whiteImage
  simp only [List.get?_zipWith', List.get?_map]
  cases hy : im.pixels.get? y with
  | none => simp
  | some row =>
    simp only [Option.map_some', Option.bind_some, Option.some_bind,
      List.get?_zipWith', List.get?_map]
    cases hx : row.get? x with
    | none => simp
    | some p => simp

/-- Claim C1, as stated, is FALSE on the code: with `initial_quality = 7`
(an integer in `[1, 100]`) and a size ceiling of 1 KB that a constant 2 KB
encoder can never meet, the backoff loop decrements 7 to 2 and returns
final quality 2, which is below 5.  The `while` guard only checks
`current_quality > 5` BEFORE subtracting 5, so any initial quality that is
not a multiple of 5 can land below the intended floor. -/
theorem finalQuality_in_5_100_counterexample :
    (1 : Nat) ≤ 7 ∧ (7 : Nat) ≤ 100 ∧
    (App.resize_and_compress_image (fun i _ _ => i) id
        (fun _ _ => List.replicate 2048 0) ⟨Mode.RGB, []⟩ 1 1 1 7).2.1 = 2 ∧
    ¬(5 ≤ (App.resize_and_compress_image (fun i _ _ => i) id
        (fun _ _ => List.replicate 2048 0) ⟨Mode.RGB, []⟩ 1 1 1 7).2.1 ∧
      (App.resize_and_compress_image (fun i _ _ => i) id
        (fun _ _ => List.replicate 2048 0) ⟨Mode.RGB, []⟩ 1 1 1 7).2.1 ≤ 100) := by
  have h2 : (App.resize_and_compress_image (fun i _ _ => i) id
      (fun _ _ => List.replicate 2048 0) ⟨Mode.RGB, []⟩ 1 1 1 7).2.1 = 2 := by
    simp only [App.resize_and_compress_image]
    rw [App.qualityLoop, dif_pos (by norm_num [sizeKb])]
    rw [App.qualityLoop, dif_neg (by norm_num)]
  refine ⟨by omega, by omega, h2, ?_⟩
  rw [h2]
  omega

/-- Claim C1 (amended): for every invocation with `initial_quality` in
`[1, 100]`, the returned final quality is an integer in `[1, 100]`; it is
at least 5 whenever `initial_quality` is a multiple of 5; and it equals the
initial quality when no reduction was needed (the first encode already fits
the ceiling). -/
theorem finalQuality_range_amended (resizeFn : Image → Nat → Nat → Image)
    (convertRGB : Image → Image) (enc : Image → Nat → List Nat)
    (image : Image) (target_width target_height : Nat)
    (max_size_kb : ℚ) (q0 : Nat) (h1 : 1 ≤ q0) (h100 : q0 ≤ 100) :
    1 ≤ (App.resize_and_compress_image resizeFn convertRGB enc image
        target_width target_height max_size_kb q0).2.1 ∧
    (App.resize_and_compress_image resizeFn convertRGB enc image
        target_width target_height max_size_kb q0).2.1 ≤ 100 ∧
    (q0 % 5 = 0 →
      5 ≤ (App.resize_and_compress_image resizeFn convertRGB enc image
        target_width target_height max_size_kb q0).2.1) ∧
    (sizeKb (enc (App.normalizeMode convertRGB
        (resizeFn image target_width target_height)) q0) ≤ max_size_kb →
      (App.resize_and_compress_image resizeFn convertRGB enc image
        target_width target_height max_size_kb q0).2.1 = q0) := by
  obtain ⟨k, hrun, hstop, heq⟩ := App.resize_and_compress_image_run
    resizeFn convertRGB enc image target_width target_height max_size_kb q0
  have hq : (App.resize_and_compress_image resizeFn convertRGB enc image
      target_width target_height max_size_kb q0).2.1 = q0 - 5 * k := by
    rw [heq]
  rw [hq]
  have hpos : 1 ≤ q0 - 5 * k ∧ q0 - 5 * k ≤ 100 := by
    rcases Nat.eq_zero_or_pos k with hk | hk
    · subst hk; constructor <;> omega
    · have := hrun (k - 1) (by omega)
      constructor <;> omega
  refine ⟨hpos.1, hpos.2, ?_, ?_⟩
  · intro hmod
    rcases Nat.eq_zero_or_pos k with hk | hk
    · subst hk; omega
    · have := hrun (k - 1) (by omega)
      omega
  · intro hfit
    rcases Nat.eq_zero_or_pos k with hk | hk
    · subst hk; omega
    · have h0 := hrun 0 hk
      simp only [Nat.mul_zero, Nat.sub_zero] at h0
      exact absurd hfit (not_le.mpr h0.1)

/-- Witness for `finalQuality_range_amended` at a concrete input: initial
quality 80 with a 1 KB ceiling and a constant 2 KB encoder. -/
theorem finalQuality_range_amended_witness :
    (1 : Nat) ≤ 80 ∧
    1 ≤ (App.resize_and_compress_image (fun i _ _ => i) id
        (fun _ _ => List.replicate 2048 0) ⟨Mode.RGB, []⟩ 1 1 1 80).2.1 ∧
    (App.resize_and_compress_image (fun i _ _ => i) id
        (fun _ _ => List.replicate 2048 0) ⟨Mode.RGB, []⟩ 1 1 1 80).2.1 ≤ 100 ∧
    5 ≤ (App.resize_and_compress_image (fun i _ _ => i) id
        (fun _ _ => List.replicate 2048 0) ⟨Mode.RGB, []⟩ 1 1 1 80).2.1 := by
  have h := finalQuality_range_amended (fun i _ _ => i) id
    (fun _ _ => List.replicate 2048 0) ⟨Mode.RGB, []⟩ 1 1 1 80
    (by omega) (by omega)
  exact ⟨by omega, h.1, h.2.1, h.2.2.1 (by omega)⟩

/-- Claim C2, as stated, is FALSE on the code: with `initial_quality = 7`
and a 1 KB ceiling that a constant 3 KB encoder never meets, the code stops
at final quality 2, but no `k ≥ 1` makes the claim's stopping condition
"resulting size ≤ max_size_kb or quality reaches 5" true: the size never
fits and the quality sequence 7, 2 never reaches 5 (the loop steps past the
floor because the guard `current_quality > 5` is tested before the
subtraction). -/
theorem backoff_search_counterexample :
    ¬(sizeKb (List.replicate 3072 (0 : Nat)) ≤ 1) ∧
    (App.resize_and_compress_image (fun i _ _ => i) id
        (fun _ _ => List.replicate 3072 0) ⟨Mode.RGB, []⟩ 1 1 1 7).2.1 = 2 ∧
    ¬(∃ k : Nat, 1 ≤ k ∧
        (sizeKb (List.replicate 3072 (0 : Nat)) ≤ 1 ∨ 7 - 5 * k = 5) ∧
        (∀ j, 1 ≤ j → j < k →
          ¬(sizeKb (List.replicate 3072 (0 : Nat)) ≤ 1 ∨ 7 - 5 * j = 5)) ∧
        (App.resize_and_compress_image (fun i _ _ => i) id
          (fun _ _ => List.replicate 3072 0) ⟨Mode.RGB, []⟩ 1 1 1 7).2.1 =
            7 - 5 * k) := by
  have hsz : ¬(sizeKb (List.replicate 3072 (0 : Nat)) ≤ 1) := by
    norm_num [sizeKb]
  refine ⟨hsz, ?_, ?_⟩
  · simp only [App.resize_and_compress_image]
    rw [App.qualityLoop, dif_pos (by norm_num [sizeKb])]
    rw [App.qualityLoop, dif_neg (by norm_num)]
  · rintro ⟨k, hk1, hcond, -, -⟩
    rcases hcond with hfit | hfive
    · exact hsz hfit
    · omega

/-- Claim C2 (amended): if the encode at `initial_quality` already fits,
the function stops there and returns it; otherwise, when
`initial_quality > 5`, the final quality is `initial_quality − 5k` for the
smallest `k ≥ 1` such that the resulting size fits the ceiling or the
decremented quality is `≤ 5` (it lands strictly below 5 when
`initial_quality` is not a multiple of 5); when `initial_quality ≤ 5` the
loop never runs and the initial encode is returned even though it exceeds
the ceiling.  In all cases the returned buffer is an encode of the
normalized pre-compression image, never of a previously encoded copy. -/
theorem backoff_search_amended (resizeFn : Image → Nat → Nat → Image)
    (convertRGB : Image → Image) (enc : Image → Nat → List Nat)
    (image : Image) (target_width target_height : Nat)
    (max_size_kb : ℚ) (q0 : Nat) :
    (sizeKb (enc (App.normalizeMode convertRGB
        (resizeFn image target_width target_height)) q0) ≤ max_size_kb →
      App.resize_and_compress_image resizeFn convertRGB enc image
          target_width target_height max_size_kb q0 =
        (enc (App.normalizeMode convertRGB
            (resizeFn image target_width target_height)) q0, q0,
         round2 (sizeKb (enc (App.normalizeMode convertRGB
            (resizeFn image target_width target_height)) q0)))) ∧
    (¬sizeKb (enc (App.normalizeMode convertRGB
        (resizeFn image target_width target_height)) q0) ≤ max_size_kb →
      5 < q0 →
      ∃ k : Nat, 1 ≤ k ∧
        (sizeKb (enc (App.normalizeMode convertRGB
            (resizeFn image target_width target_height)) (q0 - 5 * k)) ≤
              max_size_kb ∨ q0 - 5 * k ≤ 5) ∧
        (∀ j, 1 ≤ j → j < k →
          ¬(sizeKb (enc (App.normalizeMode convertRGB
              (resizeFn image target_width target_height)) (q0 - 5 * j)) ≤
                max_size_kb ∨ q0 - 5 * j ≤ 5)) ∧
        (App.resize_and_compress_image resizeFn convertRGB enc image
            target_width target_height max_size_kb q0).2.1 = q0 - 5 * k ∧
        (App.resize_and_compress_image resizeFn convertRGB enc image
            target_width target_height max_size_kb q0).1 =
          enc (App.normalizeMode convertRGB
            (resizeFn image target_width target_height)) (q0 - 5 * k)) ∧
    (¬sizeKb (enc (App.normalizeMode convertRGB
        (resizeFn image target_width target_height)) q0) ≤ max_size_kb →
      q0 ≤ 5 →
      (App.resize_and_compress_image resizeFn convertRGB enc image
          target_width target_height max_size_kb q0).2.1 = q0 ∧
      (App.resize_and_compress_image resizeFn convertRGB enc image
          target_width target_height max_size_kb q0).1 =
        enc (App.normalizeMode convertRGB
          (resizeFn image target_width target_height)) q0) := by
  obtain ⟨k, hrun, hstop, heq⟩ := App.resize_and_compress_image_run
    resizeFn convertRGB enc image target_width target_height max_size_kb q0
  refine ⟨?_, ?_, ?_⟩
  · intro hfit
    have hk0 : k = 0 := by
      by_contra hk
      have h0 := hrun 0 (by omega)
      simp only [Nat.mul_zero, Nat.sub_zero] at h0
      exact absurd hfit (not_le.mpr h0.1)
    subst hk0
    simpa using heq
  · intro hnofit h5
    have hk1 : 1 ≤ k := by
      by_contra hk
      have hk0 : k = 0 := by omega
      subst hk0
      simp only [Nat.mul_zero, Nat.sub_zero] at hstop
      exact hstop ⟨not_le.mp hnofit, h5⟩
    refine ⟨k, hk1, ?_, ?_, by rw [heq], by rw [heq]⟩
    · rcases not_and_or.mp hstop with h | h
      · exact Or.inl (not_lt.mp h)
      · exact Or.inr (by omega)
    · intro j hj1 hjk
      obtain ⟨hsz, hq5⟩ := hrun j hjk
      rintro (hA | hB)
      · exact absurd hA (not_le.mpr hsz)
      · omega
  · intro hnofit hq5
    have hk0 : k = 0 := by
      by_contra hk
      have h0 := hrun 0 (by omega)
      omega
    subst hk0
    simp only [Nat.mul_zero, Nat.sub_zero] at heq
    exact ⟨by rw [heq], by rw [heq]⟩

/-- Witness for `backoff_search_amended` at a concrete input: an encoder
producing exactly `q` KB at quality `q`, ceiling 52 KB, initial quality 60;
the loop stops after `k = 2` steps at quality 50. -/
theorem backoff_search_amended_witness :
    ∃ k : Nat, 1 ≤ k ∧
      (sizeKb (List.replicate (1024 * (60 - 5 * k)) (0 : Nat)) ≤ 52 ∨
        60 - 5 * k ≤ 5) ∧
      (∀ j, 1 ≤ j → j < k →
        ¬(sizeKb (List.replicate (1024 * (60 - 5 * j)) (0 : Nat)) ≤ 52 ∨
          60 - 5 * j ≤ 5)) ∧
      (App.resize_and_compress_image (fun i _ _ => i) id
          (fun _ q => List.replicate (1024 * q) 0) ⟨Mode.RGB, []⟩ 1 1 52
          60).2.1 = 60 - 5 * k ∧
      (App.resize_and_compress_image (fun i _ _ => i) id
          (fun _ q => List.replicate (1024 * q) 0) ⟨Mode.RGB, []⟩ 1 1 52
          60).1 = List.replicate (1024 * (60 - 5 * k)) 0 := by
  exact (backoff_search_amended (fun i _ _ => i) id
      (fun _ q => List.replicate (1024 * q) 0) ⟨Mode.RGB, []⟩ 1 1 52 60).2.1
    (by norm_num [sizeKb]) (by omega)

/-- Claim C4: for every input the quality-backoff loop terminates (the
embedded function is total and equals the counting mirror's result), the
total number of encodes is at most `⌈(initial_quality − 5) / 5⌉ + 1`
(in `ℕ`: `(q0 − 5 + 4) / 5 + 1`), and the function returns a full
`(bytes, quality, size)` triple, whatever the ceiling. -/
theorem backoff_terminates_bounded (resizeFn : Image → Nat → Nat → Image)
    (convertRGB : Image → Image) (enc : Image → Nat → List Nat)
    (image : Image) (target_width target_height : Nat)
    (max_size_kb : ℚ) (q0 : Nat) :
    (App.resize_and_compress_imageN resizeFn convertRGB enc image
        target_width target_height max_size_kb q0).2 ≤
      (q0 - 5 + 4) / 5 + 1 ∧
    (App.resize_and_compress_imageN resizeFn convertRGB enc image
        target_width target_height max_size_kb q0).1 =
      App.resize_and_compress_image resizeFn convertRGB enc image
        target_width target_height max_size_kb q0 := by
  constructor
  · have h := App.qualityLoopN_count_le
      (enc (App.normalizeMode convertRGB
        (resizeFn image target_width target_height))) max_size_kb q0
      (enc (App.normalizeMode convertRGB
        (resizeFn image target_width target_height)) q0)
      (sizeKb (enc (App.normalizeMode convertRGB
        (resizeFn image target_width target_height)) q0)) 1
    simp only [App.resize_and_compress_imageN]
    omega
  · have h := App.qualityLoopN_proj
      (enc (App.normalizeMode convertRGB
        (resizeFn image target_width target_height))) max_size_kb q0
      (enc (App.normalizeMode convertRGB
        (resizeFn image target_width target_height)) q0)
      (sizeKb (enc (App.normalizeMode convertRGB
        (resizeFn image target_width target_height)) q0)) 1
    simp only [App.resize_and_compress_imageN,
      App.resize_and_compress_image, h]

/-- Claim C9: when `initial_quality ≤ 5` the backoff loop body never
executes: exactly one encode is performed and the returned final quality is
the initial quality, for every ceiling, including one the single encode
exceeds. -/
theorem low_quality_no_backoff (resizeFn : Image → Nat → Nat → Image)
    (convertRGB : Image → Image) (enc : Image → Nat → List Nat)
    (image : Image) (target_width target_height : Nat)
    (max_size_kb : ℚ) (q0 : Nat) (hq : q0 ≤ 5) :
    (App.resize_and_compress_imageN resizeFn convertRGB enc image
        target_width target_height max_size_kb q0).2 = 1 ∧
    (App.resize_and_compress_image resizeFn convertRGB enc image
        target_width target_height max_size_kb q0).2.1 = q0 ∧
    (App.resize_and_compress_image resizeFn convertRGB enc image
        target_width target_height max_size_kb q0).1 =
      enc (App.normalizeMode convertRGB
        (resizeFn image target_width target_height)) q0 := by
  have hN := App.qualityLoopN_le_five
    (enc (App.normalizeMode convertRGB
      (resizeFn image target_width target_height))) max_size_kb q0
    (enc (App.normalizeMode convertRGB
      (resizeFn image target_width target_height)) q0)
    (sizeKb (enc (App.normalizeMode convertRGB
      (resizeFn image target_width target_height)) q0)) 1 hq
  have hL : App.qualityLoop
      (enc (App.normalizeMode convertRGB
        (resizeFn image target_width target_height))) max_size_kb q0
      (enc (App.normalizeMode convertRGB
        (resizeFn image target_width target_height)) q0)
      (sizeKb (enc (App.normalizeMode convertRGB
        (resizeFn image target_width target_height)) q0)) =
      (enc (App.normalizeMode convertRGB
        (resizeFn image target_width target_height)) q0, q0,
       sizeKb (enc (App.normalizeMode convertRGB
        (resizeFn image target_width target_height)) q0)) := by
    rw [App.qualityLoop, dif_neg (by rintro ⟨-, h5⟩; omega)]
  refine ⟨?_, ?_, ?_⟩
  · simp only [App.resize_and_compress_imageN, hN]
  · simp only [App.resize_and_compress_image, hL]
  · simp only [App.resize_and_compress_image, hL]

/-- Witness for `low_quality_no_backoff`: initial quality 3, a constant
2 KB encoder and a 1 KB ceiling the encode exceeds; still a single encode,
final quality 3. -/
theorem low_quality_no_backoff_witness :
    (3 : Nat) ≤ 5 ∧
    (App.resize_and_compress_imageN (fun i _ _ => i) id
        (fun _ _ => List.replicate 2048 0) ⟨Mode.RGB, []⟩ 1 1 1 3).2 = 1 ∧
    (App.resize_and_compress_image (fun i _ _ => i) id
        (fun _ _ => List.replicate 2048 0) ⟨Mode.RGB, []⟩ 1 1 1 3).2.1 = 3 := by
  have h := low_quality_no_backoff (fun i _ _ => i) id
    (fun _ _ => List.replicate 2048 0) ⟨Mode.RGB, []⟩ 1 1 1 3 (by omega)
  exact ⟨by omega, h.1, h.2.1⟩

/-- Claim C10: the returned `final_size_kb` is exactly
`round(len(returned_bytes) / 1024, 2)`, and the returned bytes are the
output of the last encode performed - the encode of the normalized image at
the returned final quality. -/
theorem result_size_self_consistent (resizeFn : Image → Nat → Nat → Image)
    (convertRGB : Image → Image) (enc : Image → Nat → List Nat)
    (image : Image) (target_width target_height : Nat)
    (max_size_kb : ℚ) (q0 : Nat) :
    (App.resize_and_compress_image resizeFn convertRGB enc image
        target_width target_height max_size_kb q0).2.2 =
      round2 ((((App.resize_and_compress_image resizeFn convertRGB enc image
        target_width target_height max_size_kb q0).1).length : ℚ) / 1024) ∧
    (App.resize_and_compress_image resizeFn convertRGB enc image
        target_width target_height max_size_kb q0).1 =
      enc (App.normalizeMode convertRGB
          (resizeFn image target_width target_height))
        (App.resize_and_compress_image resizeFn convertRGB enc image
          target_width target_height max_size_kb q0).2.1 := by
  obtain ⟨k, hrun, hstop, heq⟩ := App.resize_and_compress_image_run
    resizeFn convertRGB enc image target_width target_height max_size_kb q0
  rw [heq]
  exact ⟨rfl, rfl⟩

/-- Claim C3: color-mode normalization maps every resized image to
three-channel RGB as follows.  An `RGBA` image (the mode with an alpha
channel in this data model) is composited onto an opaque white background
through its alpha mask - pixel by pixel the result is the blend of the
source pixel over opaque white, never the generic conversion; a palette
(`P`) image without alpha, and any other non-RGB mode, go directly through
`convert('RGB')`.  At the pixel level: a fully transparent pixel becomes
pure white, a fully opaque pixel keeps its color, and a partial-alpha pixel
is the linear interpolation between its color and white (exactly, up to
PIL's half-unit-per-term rounding: `255 ×` the blended channel is within
256 of `c·α + 255·(255 − α)`). -/
theorem normalizeMode_color_spec (convertRGB : Image → Image) (im : Image) :
    (im.mode = Mode.RGBA →
      App.normalizeMode convertRGB im = pasteImages (whiteImage im) im ∧
      (∀ x y p, getPixel im x y = some p →
        getPixel (App.normalizeMode convertRGB im) x y =
          some (blendPix whitePixel p))) ∧
    (im.mode = Mode.P → App.normalizeMode convertRGB im = convertRGB im) ∧
    (im.mode ≠ Mode.RGBA → im.mode ≠ Mode.P → im.mode ≠ Mode.RGB →
      App.normalizeMode convertRGB im = convertRGB im) ∧
    (∀ p : Pixel, p.a = 0 → blendPix whitePixel p = whitePixel) ∧
    (∀ p : Pixel, p.a = 255 → p.r ≤ 255 → p.g ≤ 255 → p.b ≤ 255 →
      blendPix whitePixel p = ⟨p.r, p.g, p.b, 255⟩) ∧
    (∀ c alpha : Nat, c ≤ 255 → alpha ≤ 255 →
      255 * (255 - alpha) + c * alpha ≤
        255 * blendChannel 255 c alpha + 256 ∧
      255 * blendChannel 255 c alpha ≤
        255 * (255 - alpha) + c * alpha + 256) := by
  refine ⟨?_, ?_, ?_, ?_, ?_, ?_⟩
  · intro hm
    have he : App.normalizeMode convertRGB im =
        pasteImages (whiteImage im) im := by
      unfold App.normalizeMode
      rw [hm]
      simp
    refine ⟨he, ?_⟩
    intro x y p hp
    rw [he, pasteOnWhite_getPixel, hp, Option.map_some']
  · intro hm
    unfold App.normalizeMode
    rw [hm]
    simp
  · intro h1 h2 h3
    unfold App.normalizeMode
    rw [if_neg (by simp [h1, h2]), if_pos h3]
  · intro p hp
    unfold blendPix whitePixel
    rw [hp]
    simp only
    rw [blendChannel_alpha_zero 255 p.r (by omega),
      blendChannel_alpha_zero 255 p.g (by omega),
      blendChannel_alpha_zero 255 p.b (by omega)]
  · intro p hp hr hg hb
    unfold blendPix whitePixel
    rw [hp]
    simp only
    rw [blendChannel_alpha_full 255 p.r hr,
      blendChannel_alpha_full 255 p.g hg,
      blendChannel_alpha_full 255 p.b hb]
  · intro c alpha hc ha
    unfold blendChannel
    obtain ⟨h1, h2⟩ := muldiv255_bounds 255 (255 - alpha)
      (le_refl 255) (by omega)
    obtain ⟨h3, h4⟩ := muldiv255_bounds c alpha hc ha
    constructor
    · have : 255 * (255 - alpha) = (255 : Nat) * (255 - alpha) := rfl
      omega
    · omega

/-- Witness for `normalizeMode_color_spec`: a one-pixel RGBA image with a
half-transparent red pixel; its normalization is the white-composite, a
fully transparent pixel maps to pure white, a fully opaque one is kept, and
the blend of the half-transparent channel is bracketed by the linear
interpolation. -/
theorem normalizeMode_color_spec_witness :
    (App.normalizeMode id ⟨Mode.RGBA, [[⟨200, 16, 16, 128⟩]]⟩ =
      pasteImages (whiteImage ⟨Mode.RGBA, [[⟨200, 16, 16, 128⟩]]⟩)
        ⟨Mode.RGBA, [[⟨200, 16, 16, 128⟩]]⟩) ∧
    blendPix whitePixel ⟨200, 16, 16, 0⟩ = whitePixel ∧
    blendPix whitePixel ⟨200, 16, 16, 255⟩ = ⟨200, 16, 16, 255⟩ ∧
    (255 * (255 - 128) + 200 * 128 ≤ 255 * blendChannel 255 200 128 + 256 ∧
      255 * blendChannel 255 200 128 ≤
        255 * (255 - 128) + 200 * 128 + 256) := by
  have h := normalizeMode_color_spec id ⟨Mode.RGBA, [[⟨200, 16, 16, 128⟩]]⟩
  exact ⟨(h.1 rfl).1, h.2.2.2.1 ⟨200, 16, 16, 0⟩ rfl,
    h.2.2.2.2.1 ⟨200, 16, 16, 255⟩ rfl (by decide) (by decide) (by decide),
    h.2.2.2.2.2 200 128 (by omega) (by omega)⟩

/-- Claim C6: the color-mode normalization step applied to an image that is
already three-channel RGB (no alpha) is a no-op: the image is returned
unchanged (byte-identical). -/
theorem normalizeMode_rgb_noop (convertRGB : Image → Image) (im : Image)
    (h : im.mode = Mode.RGB) :
    App.normalizeMode convertRGB im = im := by
  unfold App.normalizeMode
  rw [h]
  simp

/-- Witness for `normalizeMode_rgb_noop` on a concrete RGB image. -/
theorem normalizeMode_rgb_noop_witness :
    (⟨Mode.RGB, [[⟨1, 2, 3, 255⟩]]⟩ : Image).mode = Mode.RGB ∧
    App.normalizeMode id ⟨Mode.RGB, [[⟨1, 2, 3, 255⟩]]⟩ =
      ⟨Mode.RGB, [[⟨1, 2, 3, 255⟩]]⟩ :=
  ⟨rfl, normalizeMode_rgb_noop id ⟨Mode.RGB, [[⟨1, 2, 3, 255⟩]]⟩ rfl⟩

/-- Claim C5: the `/upload` handler's range validation rejects any
non-positive width or height with HTTP 400 before the core transform is
invoked (the result is the same error whatever `core` does), rejects EVERY
`max_size_kb` strictly above 10240 - in particular 10240.01 - with the
size-limit 400, and accepts `max_size_kb = 10240` exactly, passing all
parameters through to `resize_and_compress_image` unchanged. -/
theorem upload_validation_ranges {R : Type} :
    (∀ (core : Int → Int → ℚ → Int → R) (w h : Int) (m : ℚ) (q : Int),
      w ≤ 0 ∨ h ≤ 0 →
      App.upload_and_process core w h m q =
        Except.error (400, "Width and height must be positive numbers.")) ∧
    (∀ (core : Int → Int → ℚ → Int → R) (w h : Int) (m : ℚ) (q : Int),
      0 < w → w ≤ 5000 → 0 < h → h ≤ 5000 → 10240 < m →
      App.upload_and_process core w h m q =
        Except.error
          (400, "Maximum file size cannot exceed 10240 KB (10 MB).")) ∧
    (∀ (core : Int → Int → ℚ → Int → R) (w h q : Int),
      0 < w → w ≤ 5000 → 0 < h → h ≤ 5000 → 1 ≤ q → q ≤ 100 →
      App.upload_and_process core w h 10240 q =
        Except.ok (core w h 10240 q)) := by
  refine ⟨?_, ?_, ?_⟩
  · intro core w h m q hwh
    unfold App.upload_and_process App.validateParams
    rw [if_pos hwh]
  · intro core w h m q hw1 hw2 hh1 hh2 hm
    unfold App.upload_and_process App.validateParams
    rw [if_neg (by omega), if_neg (by omega),
      if_neg (not_le.mpr (by linarith)), if_pos hm]
  · intro core w h q hw1 hw2 hh1 hh2 hq1 hq2
    unfold App.upload_and_process App.validateParams
    rw [if_neg (by omega), if_neg (by omega), if_neg (by norm_num),
      if_neg (by norm_num), if_neg (by omega)]

/-- Witness for `upload_validation_ranges`: `width = 0` yields the 400,
`max_size_kb = 10240.01` yields the size 400, `max_size_kb = 10240` with
defaults `width = height = 200`, `quality = 80` reaches the core. -/
theorem upload_validation_ranges_witness :
    App.upload_and_process (fun _ _ _ _ => (0 : Nat)) 0 200 50 80 =
      Except.error (400, "Width and height must be positive numbers.") ∧
    App.upload_and_process (fun _ _ _ _ => (0 : Nat)) 200 200
        (1024001 / 100) 80 =
      Except.error
        (400, "Maximum file size cannot exceed 10240 KB (10 MB).") ∧
    App.upload_and_process (fun _ _ _ _ => (0 : Nat)) 200 200 10240 80 =
      Except.ok 0 := by
  refine ⟨?_, ?_, ?_⟩
  · exact upload_validation_ranges.1 (fun _ _ _ _ => 0) 0 200 50 80
      (Or.inl le_rfl)
  · exact upload_validation_ranges.2.1 (fun _ _ _ _ => 0) 200 200
      (1024001 / 100) 80 (by omega) (by omega) (by omega) (by omega)
      (by norm_num)
  · exact upload_validation_ranges.2.2 (fun _ _ _ _ => 0) 200 200 80
      (by omega) (by omega) (by omega) (by omega) (by omega) (by omega)

/-- The two files' backoff loops agree on every state (they are verbatim
copies of one another). -/
theorem app_api_loops_equal (enc : Nat → List Nat) (maxKb : ℚ) (q : Nat) :
    ∀ buf sz,
      App.qualityLoop enc maxKb q buf sz =
        Api.qualityLoop enc maxKb q buf sz := by
  induction q using Nat.strong_induction_on with
  | _ q ih =>
    intro buf sz
    by_cases h : maxKb < sz ∧ 5 < q
    · rw [App.qualityLoop, dif_pos h, Api.qualityLoop, dif_pos h]
      exact ih (q - 5) (by omega) _ _
    · rw [App.qualityLoop, dif_neg h, Api.qualityLoop, dif_neg h]

/-- Claim C8: the cores of the two entrypoint files are extensionally
equal: for every image, target dimensions, ceiling and initial quality
(and for the same PIL collaborators), `resize_and_compress_image` in
`app.py` and in `api/index.py` return identical
`(bytes, final_quality, final_size_kb)` triples. -/
theorem app_api_cores_equal (resizeFn : Image → Nat → Nat → Image)
    (convertRGB : Image → Image) (enc : Image → Nat → List Nat)
    (image : Image) (target_width target_height : Nat)
    (max_size_kb : ℚ) (initial_quality : Nat) :
    App.resize_and_compress_image resizeFn convertRGB enc image
        target_width target_height max_size_kb initial_quality =
      Api.resize_and_compress_image resizeFn convertRGB enc image
        target_width target_height max_size_kb initial_quality := by
  have hnorm : App.normalizeMode convertRGB
      (resizeFn image target_width target_height) =
      Api.normalizeMode convertRGB
        (resizeFn image target_width target_height) := rfl
  simp only [App.resize_and_compress_image, Api.resize_and_compress_image]
  rw [← hnorm, app_api_loops_equal]

/-- Claim C7: the core never mutates the caller's source image.  In the
heap-explicit transcription (where `resize` and `convert` allocate new
images and `paste` mutates its target in place), after a full run the heap
cell holding the caller's image is unchanged - the one `paste` mutation
hits only the freshly allocated background - and the returned value is
exactly that of the pure (value-semantics) core on the caller's image. -/
theorem source_image_unchanged (resizeFn : Image → Nat → Nat → Image)
    (convertRGB : Image → Image) (enc : Image → Nat → List Nat)
    (s : Store) (i : Nat) (target_width target_height : Nat)
    (max_size_kb : ℚ) (q0 : Nat) (hi : i < s.length) :
    ((App.resize_and_compress_image_store resizeFn convertRGB enc s i
        target_width target_height max_size_kb q0).1).get? i = s.get? i ∧
    (App.resize_and_compress_image_store resizeFn convertRGB enc s i
        target_width target_height max_size_kb q0).2 =
      App.resize_and_compress_image resizeFn convertRGB enc
        (List.getD s i dfltImage) target_width target_height max_size_kb
        q0 := by
  constructor
  · simp only [App.resize_and_compress_image_store]
    split_ifs with h1 h2
    · rw [List.get?_set_ne _ _ (by simp; omega),
        List.get?_append (by simp; omega), List.get?_append hi]
    · rw [List.get?_append (by simp; omega),
        List.get?_append (by simp; omega), List.get?_append hi]
    · rw [List.get?_append (by simp; omega), List.get?_append hi]
    · rw [List.get?_append hi]
  · simp only [App.resize_and_compress_image_store,
      App.resize_and_compress_image, App.normalizeMode]
    split_ifs <;> rfl

/-- Witness for `source_image_unchanged`: a two-image heap whose cell 0
holds a one-pixel RGBA image; after the run cell 0 is unchanged and the
result matches the pure core. -/
theorem source_image_unchanged_witness :
    ((App.resize_and_compress_image_store (fun i _ _ => i) id
        (fun _ _ => List.replicate 10 0)
        [⟨Mode.RGBA, [[⟨9, 9, 9, 0⟩]]⟩] 0 1 1 1 80).1).get? 0 =
      some ⟨Mode.RGBA, [[⟨9, 9, 9, 0⟩]]⟩ ∧
    (App.resize_and_compress_image_store (fun i _ _ => i) id
        (fun _ _ => List.replicate 10 0)
        [⟨Mode.RGBA, [[⟨9, 9, 9, 0⟩]]⟩] 0 1 1 1 80).2 =
      App.resize_and_compress_image (fun i _ _ => i) id
        (fun _ _ => List.replicate 10 0) ⟨Mode.RGBA, [[⟨9, 9, 9, 0⟩]]⟩
        1 1 1 80 := by
  have h := source_image_unchanged (fun i _ _ => i) id
    (fun _ _ => List.replicate 10 0)
    [⟨Mode.RGBA, [[⟨9, 9, 9, 0⟩]]⟩] 0 1 1 1 80 (by simp)
  exact ⟨h.1, h.2⟩
